import Mathlib

/-!
Verification development for the task-management application.

The definitions below are a shallow embedding of the application's
data-access layer and of the database schema, row-level-security policies
and triggers it runs against:

* `src/supabase/migrations/20260103065802_*.sql` — `tasks` table, its four
  per-user RLS policies, and the `update_updated_at_column` trigger;
* `src/unnamed/part_000` — `profiles` table, its RLS policies, and the
  `update_profiles_updated_at` trigger;
* `src/src/pages/Index.tsx` — `listTasks` query (status filter, trimmed
  ILIKE search, `created_at` descending order, range pagination, exact
  count), `pageCount`, `createTask`, `updateTask`, `deleteTask`, and the
  Add Task button guard;
* `src/src/pages/Profile.tsx` — `task-counts` query summary,
  `totalTasks` / `completedTasks` / `pendingTasks`, `upsertProfile`, and the
  avatar file-input handler (no client-side validation);
* `src/unnamed/part_001` — the alternate dashboard's client-side
  `filteredTasks`;
* `src/unnamed/part_002` — the alternate profile page's avatar handler
  with size/type validation.

Machine text is modelled as `String`, identities (UUIDs) as `String`,
timestamps as `Nat` (`now()` is passed in explicitly).  A table is a
`List` of row structures; the RLS policies are the `filter` predicates on
the owner column.  Fallible store calls return `Except DbError`.
-/

/-- Task status enum from the migration: `('pending', 'completed')`. -/
inductive TaskStatus
  | pending
  | completed
deriving DecidableEq

/-- A row of `public.tasks` (id, user_id, title, description, status,
created_at, updated_at). -/
structure TaskRow where
  id : String
  user_id : String
  title : String
  description : Option String
  status : TaskStatus
  created_at : Nat
  updated_at : Nat
deriving DecidableEq

/-- A row of `public.profiles` (id, user_id unique, name, avatar_url,
created_at, updated_at). -/
structure ProfileRow where
  id : String
  user_id : String
  name : Option String
  avatar_url : Option String
  created_at : Nat
  updated_at : Nat
deriving DecidableEq

/-- Errors surfaced by the store; the supabase client resolves
mutations with `error = null` on success, modelled as `Except DbError`. -/
inductive DbError
  | rlsViolation
deriving DecidableEq

/-- JavaScript `String.prototype.trim()`: strip whitespace from both
ends. -/
def jsTrim (s : String) : String :=
  String.mk (((s.toList.dropWhile Char.isWhitespace).reverse.dropWhile
    Char.isWhitespace).reverse)

/-- Lower-case a character list (model of `toLowerCase` and of the
case-folding `ILIKE` performs). -/
def lowerChars (l : List Char) : List Char := l.map Char.toLower

/-- Case-insensitive LITERAL substring test: the model of JavaScript
`hay.toLowerCase().includes(pat.toLowerCase())` (used by the alternate
dashboard's client-side filter, where the search string is plain text).
SQL `ILIKE` is NOT this — see `ilikeMatch` — and coincides with it only
for wildcard-free patterns. -/
def containsCI (hay pat : String) : Bool :=
  decide (lowerChars pat.toList <:+: lowerChars hay.toList)

/-- SQL LIKE/ILIKE pattern matching over characters, case-insensitive:
`%` matches any (possibly empty) run of characters, `_` matches exactly
one character, and any other pattern character matches a text character
with the same lower-casing.  Recursion is structural on the pattern (a
`%` consumes an arbitrary suffix via `List.tails`).  The LIKE escape
character `\` is not modelled; theorems about searches therefore assume
backslash-free values. -/
def ilikeMatch : List Char → List Char → Bool
  | [], s => s.isEmpty
  | c :: ps, s =>
      if c = '%' then s.tails.any (fun t => ilikeMatch ps t)
      else if c = '_' then
        match s with
        | [] => false
        | _ :: s2 => ilikeMatch ps s2
      else
        match s with
        | [] => false
        | d :: s2 => (c.toLower == d.toLower) && ilikeMatch ps s2

/-- PostgREST value translation for the `ilike` operator: `*` in the
supplied value becomes the SQL wildcard `%` (literal `%` passes
through). -/
def postgrestStar (v : List Char) : List Char :=
  v.map (fun c => if c = '*' then '%' else c)

/-- The SQL pattern the tasks query builds from the search box:
`%${search.trim()}%` as interpolated in
`title.ilike.%v%,description.ilike.%v%`, after PostgREST's `*`
translation.  The trimmed search value is user-controlled pattern text,
not a literal. -/
def searchPattern (search : String) : List Char :=
  '%' :: postgrestStar (jsTrim search).toList ++ ['%']

/-- Search characters that do not disturb the PostgREST `.or(...)`
filter syntax the value is interpolated into (`,`, `(`, `)` would split
or nest filters) and are not the LIKE escape character: the embedding
is faithful for values made of these. -/
def patternSafeChar (c : Char) : Bool :=
  !(c == ',' || c == '(' || c == ')' || c == '\\')

/-- Search characters that additionally carry no wildcard meaning
(`%`, `_` in SQL LIKE, `*` in PostgREST): a trimmed search made of
these is matched as a literal substring. -/
def literalSearchChar (c : Char) : Bool :=
  patternSafeChar c && !(c == '%' || c == '_' || c == '*')

/-- JavaScript `s || null`: an empty string becomes SQL NULL. -/
def strOrNone (s : String) : Option String :=
  if s == "" then none else some s

/-- The dashboard status filter: `"all" | TaskStatus`. -/
inductive StatusFilter
  | all
  | only (s : TaskStatus)
deriving DecidableEq

/-- Query parameters of the tasks list query in `Index.tsx`. -/
structure ListParams where
  page : Nat
  statusFilter : StatusFilter
  search : String
deriving DecidableEq

/-- Page size constant: `const pageSize = 10` in `Index.tsx`. -/
def pageSize : Nat := 10

/-- The `.order("created_at", { ascending: false })` comparison. -/
def createdDescRel (a b : TaskRow) : Prop := b.created_at ≤ a.created_at

instance : DecidableRel createdDescRel := fun a b => Nat.decLe b.created_at a.created_at

/-- RLS policy "Users can view their own tasks": `auth.uid() = user_id`.
Non-owned rows are silently filtered out of every SELECT. -/
def rlsSelectTasks (uid : String) (db : List TaskRow) : List TaskRow :=
  db.filter (fun r => r.user_id == uid)

/-- The status-filter conjunct of the tasks query:
`if (statusFilter !== "all") query = query.eq("status", statusFilter)`. -/
def matchesStatus (f : StatusFilter) (r : TaskRow) : Bool :=
  match f with
  | .all => true
  | .only s => r.status == s

/-- The search conjunct of the tasks query: applied only when
`search.trim()` is truthy, as the PostgREST filter
`title.ilike.%v%,description.ilike.%v%` with `v = search.trim()`,
i.e. SQL `ILIKE` against `searchPattern` with `%`/`_` wildcards.
`ILIKE` on a NULL description matches nothing.  Faithful for search
values whose characters are `patternSafeChar` (others would alter the
`.or(...)` filter syntax or act as the LIKE escape). -/
def matchesSearch (search : String) (r : TaskRow) : Bool :=
  if jsTrim search == "" then true
  else
    ilikeMatch (searchPattern search) r.title.toList ||
      (match r.description with
        | some d => ilikeMatch (searchPattern search) d.toList
        | none => false)

/-- All rows matched by the tasks query of `Index.tsx` before the
`.range` slice: RLS owner scoping, then the status and search filters,
ordered by `created_at` descending.  `{ count: "exact" }` counts this
list. -/
def taskMatches (uid : String) (db : List TaskRow) (p : ListParams) : List TaskRow :=
  List.insertionSort createdDescRel
    (((rlsSelectTasks uid db).filter (matchesStatus p.statusFilter)).filter
      (matchesSearch p.search))

/-- The tasks list query (`queryFn` in `Index.tsx`): returns the page
slice `range(from, to)` with `from = (page - 1) * pageSize`,
`to = from + pageSize - 1`, together with the exact pre-pagination
count.  The SELECT path itself never errors on non-owned rows — they are
filtered. -/
def listTasks (uid : String) (db : List TaskRow) (p : ListParams) :
    List TaskRow × Nat :=
  (((taskMatches uid db p).drop ((p.page - 1) * pageSize)).take pageSize,
    (taskMatches uid db p).length)

/-- Page count: `const pageCount = Math.max(1, Math.ceil(totalCount / pageSize))`
(`Index.tsx:162`); `(n + 9) / 10` is ceiling division on `Nat`. -/
def pageCount (totalCount : Nat) : Nat :=
  max 1 ((totalCount + pageSize - 1) / pageSize)

/-- Create mutation (`createTask.mutationFn` in `Index.tsx`): inserts
`{ title, description: description || null, status, user_id: user?.id }`
with no client-side validation of the title.  Without a session the
insert carries no authenticated identity, so the `with check
auth.uid() = user_id` policy rejects it; with a session the row is
accepted (the `title` column is only NOT NULL — the empty string is a
legal value).  `newId` and `now` stand for the column defaults
`gen_random_uuid()` and `now()`. -/
def createTask (user : Option String) (title description : String)
    (status : TaskStatus) (db : List TaskRow) (newId : String) (now : Nat) :
    Except DbError (List TaskRow) :=
  match user with
  | none => .error .rlsViolation
  | some uid =>
      .ok (db ++ [{ id := newId, user_id := uid, title := title,
                    description := strOrNone description, status := status,
                    created_at := now, updated_at := now }])

/-- The Add Task button guard
`disabled={createTask.isPending || !title.trim()}` (`Index.tsx:349`). -/
def addTaskDisabled (isPending : Bool) (title : String) : Bool :=
  isPending || jsTrim title == ""

/-- Delete mutation (`deleteTask.mutationFn` in `Index.tsx`):
`supabase.from("tasks").delete().eq("id", id)` under the
"Users can delete their own tasks" policy.  A DELETE that matches zero
rows (absent id, or a row owned by someone else) completes with
`error = null`; no NotFound condition is reported by the store. -/
def deleteTask (uid : String) (db : List TaskRow) (id : String) :
    Except DbError (List TaskRow) :=
  .ok (db.filter (fun r => !(r.id == id && r.user_id == uid)))

/-- Caller-supplied column set of an UPDATE on `tasks` issued by
`updateTask.mutationFn` (title, description, status; `updated_at` is
included to model a caller that supplies a value for that column). -/
structure TaskUpdateChanges where
  title : Option String := none
  description : Option (Option String) := none
  status : Option TaskStatus := none
  updated_at : Option Nat := none

/-- Apply the caller-supplied SET list of an UPDATE to a task row;
columns not named keep their value. -/
def applyTaskChanges (r : TaskRow) (c : TaskUpdateChanges) : TaskRow :=
  { r with
    title := c.title.getD r.title,
    description := c.description.getD r.description,
    status := c.status.getD r.status,
    updated_at := c.updated_at.getD r.updated_at }

/-- The `update_updated_at_column` trigger function
(`new.updated_at = now()`), fired BEFORE UPDATE on `tasks`. -/
def update_updated_at_column (now : Nat) (r : TaskRow) : TaskRow :=
  { r with updated_at := now }

/-- A successful UPDATE of one `tasks` row: the caller's SET list is
applied, then the BEFORE UPDATE trigger refreshes `updated_at`. -/
def updateTaskRow (now : Nat) (r : TaskRow) (c : TaskUpdateChanges) : TaskRow :=
  update_updated_at_column now (applyTaskChanges r c)

/-- Caller-supplied column set of an UPDATE on `profiles`. -/
structure ProfileUpdateChanges where
  name : Option (Option String) := none
  avatar_url : Option (Option String) := none
  updated_at : Option Nat := none

/-- Apply the caller-supplied SET list of an UPDATE to a profile row. -/
def applyProfileChanges (r : ProfileRow) (c : ProfileUpdateChanges) : ProfileRow :=
  { r with
    name := c.name.getD r.name,
    avatar_url := c.avatar_url.getD r.avatar_url,
    updated_at := c.updated_at.getD r.updated_at }

/-- The `update_profiles_updated_at` trigger (`src/unnamed/part_000`),
running the shared `update_updated_at_column` function BEFORE UPDATE on
`profiles`. -/
def update_profiles_updated_at (now : Nat) (r : ProfileRow) : ProfileRow :=
  { r with updated_at := now }

/-- A successful UPDATE of one `profiles` row: SET list, then trigger. -/
def updateProfileRow (now : Nat) (r : ProfileRow) (c : ProfileUpdateChanges) :
    ProfileRow :=
  update_profiles_updated_at now (applyProfileChanges r c)

/-- The database-side upsert
`.upsert({user_id, name, avatar_url}, { onConflict: "user_id" })`: if a
row with the conflict-target `user_id` exists its `name`/`avatar_url`
are replaced (and the BEFORE UPDATE trigger refreshes `updated_at`),
otherwise a new row is inserted with the column defaults. -/
def upsertProfileRow (db : List ProfileRow) (uid : String)
    (nm av : Option String) (newId : String) (now : Nat) : List ProfileRow :=
  if db.any (fun r => r.user_id == uid) then
    db.map (fun r =>
      if r.user_id == uid then
        { r with name := nm, avatar_url := av, updated_at := now }
      else r)
  else
    db ++ [{ id := newId, user_id := uid, name := nm, avatar_url := av,
             created_at := now, updated_at := now }]

/-- Upsert mutation (`upsertProfile.mutationFn` in `Profile.tsx`): with no session the
guard `if (!user) return;` makes the mutation resolve successfully
without touching the store; with a session it upserts
`{ user_id: user.id, name: name || null, avatar_url: finalAvatarUrl || null }`
where `finalAvatarUrl = args?.overrideAvatarUrl ?? avatarUrl`.  The
insert/update RLS checks compare `user_id` with the session identity,
which match here, so the store call succeeds. -/
def upsertProfile (user : Option String) (name avatarUrl : String)
    (overrideAvatarUrl : Option String) (db : List ProfileRow)
    (newId : String) (now : Nat) : Except DbError (List ProfileRow) :=
  match user with
  | none => .ok db
  | some uid =>
      let finalAvatarUrl := overrideAvatarUrl.getD avatarUrl
      .ok (upsertProfileRow db uid (strOrNone name) (strOrNone finalAvatarUrl)
        newId now)

/-- The alternate dashboard's client-side filter
(`src/unnamed/part_001:528`): keep tasks whose title or
(`description ?? ""`) contains the raw (untrimmed) search string
case-insensitively — unless `search.trim()` is empty — and whose status
matches the filter. -/
def filteredTasks (tasks : List TaskRow) (search : String)
    (statusFilter : StatusFilter) : List TaskRow :=
  tasks.filter (fun task =>
    ((jsTrim search).length == 0 ||
        (containsCI task.title search ||
          containsCI (task.description.getD "") search)) &&
      matchesStatus statusFilter task)

/-- A file chosen in the avatar `<input type="file">`. -/
structure AvatarFile where
  name : String
  size : Nat
  mimeType : String
deriving DecidableEq

/-- What an avatar-input change handler does with the chosen file: bail
out with no file/session, reject before any storage call (size or type
message), or issue the storage upload at the given object path. -/
inductive AvatarUploadStep
  | noFile
  | sizeRejected (msg : String)
  | typeRejected (msg : String)
  | storageUpload (path : String)
deriving DecidableEq

/-- Size limit `const maxSizeMb = 5` in the validated handler
(`src/unnamed/part_002`). -/
def maxSizeMb : Nat := 5

/-- JavaScript `name.split(".").pop()`: the last dot-separated piece
(split always yields at least one piece). -/
def jsSplitPop (name : String) : String :=
  String.mk ((name.toList.splitOn '.').getLastD [])

/-- Extension fallback `file.name.split(".").pop() || "png"` from the validated handler. -/
def fileExtAlt (name : String) : String :=
  let e := jsSplitPop name
  if e == "" then "png" else e

/-- The avatar handler of `Profile.tsx` (lines 325-363): no client-side
size or type validation — any selected file goes straight to
`storage.from("avatars").upload` at
`${user.id}/${user.id}-${Date.now()}.${fileExt}` with
`fileExt = file.name.split(".").pop()`. -/
def avatarOnChange (user : Option String) (file : Option AvatarFile)
    (nowTs : Nat) : AvatarUploadStep :=
  match file, user with
  | none, _ => .noFile
  | some _, none => .noFile
  | some f, some uid =>
      .storageUpload (uid ++ "/" ++ uid ++ "-" ++ Nat.repr nowTs ++ "." ++
        jsSplitPop f.name)

/-- The avatar handler of the alternate profile page
(`src/unnamed/part_002:350`): rejects files over `maxSizeMb` MiB, then
non-`image/*` content types, each with its own message and before the
storage call; otherwise uploads at `user-${user.id}/${Date.now()}.${ext}`. -/
def avatarOnChangeValidated (user : Option String) (file : Option AvatarFile)
    (nowTs : Nat) : AvatarUploadStep :=
  match file, user with
  | none, _ => .noFile
  | some _, none => .noFile
  | some f, some uid =>
      if maxSizeMb * 1024 * 1024 < f.size then
        .sizeRejected ("Please choose an image smaller than " ++
          Nat.repr maxSizeMb ++ "MB.")
      else if !("image/".toList.isPrefixOf f.mimeType.toList) then
        .typeRejected "Please upload an image file (PNG, JPG, etc.)."
      else
        .storageUpload ("user-" ++ uid ++ "/" ++ Nat.repr nowTs ++ "." ++
          fileExtAlt f.name)

/-- The `task-counts` summary of `Profile.tsx` (queryFn lines 34-57):
keys of the `summary` record, in first-occurrence (insertion) order. -/
def statusKeys (rows : List TaskStatus) : List TaskStatus :=
  rows.foldl (fun ks s => if s ∈ ks then ks else ks ++ [s]) []

/-- Summary rows `Object.entries(summary)` mapped to status/count pairs: the
count stored under each key is the number of fetched rows with that
status. -/
def taskCounts (rows : List TaskStatus) : List (TaskStatus × Nat) :=
  (statusKeys rows).map (fun s => (s, rows.count s))

/-- Total `counts.reduce((sum, row) => sum + row.count, 0)` (`Profile.tsx:164`). -/
def totalTasks (counts : List (TaskStatus × Nat)) : Nat :=
  counts.foldl (fun sum row => sum + row.2) 0

/-- Completed count `counts.find((row) => row.status === "completed")?.count ?? 0`. -/
def completedTasks (counts : List (TaskStatus × Nat)) : Nat :=
  ((counts.find? (fun row => row.1 == TaskStatus.completed)).map
    (fun row => row.2)).getD 0

/-- Pending count `counts.find((row) => row.status === "pending")?.count ?? 0`. -/
def pendingTasks (counts : List (TaskStatus × Nat)) : Nat :=
  ((counts.find? (fun row => row.1 == TaskStatus.pending)).map
    (fun row => row.2)).getD 0

/-- Sample owned task used by concrete witnesses. -/
def sampleTaskA : TaskRow :=
  { id := "t1", user_id := "u1", title := "Buy milk", description := none,
    status := .pending, created_at := 2, updated_at := 2 }

/-- Sample task owned by a second identity. -/
def sampleTaskB : TaskRow :=
  { id := "t2", user_id := "u2", title := "Other", description := none,
    status := .completed, created_at := 1, updated_at := 1 }

/-- Unfiltered first-page query parameters. -/
def sampleParamsAll : ListParams :=
  { page := 1, statusFilter := .all, search := "" }

/-- First-page query with a search string carrying a trailing space. -/
def sampleParamsSearch : ListParams :=
  { page := 1, statusFilter := .all, search := "milk " }

/-- A task whose title contains "milk" but not "milk ". -/
def milkshakeTask : TaskRow :=
  { id := "t3", user_id := "u1", title := "milkshake", description := none,
    status := .pending, created_at := 3, updated_at := 3 }

/-- Profile row as stored after upserting the name "Ann" into an empty
store. -/
def profileAnn : ProfileRow :=
  { id := "p1", user_id := "u1", name := some "Ann", avatar_url := none,
    created_at := 1, updated_at := 1 }

/-- Profile row as stored after the second upsert with the name "Bea". -/
def profileBea : ProfileRow :=
  { id := "p1", user_id := "u1", name := some "Bea", avatar_url := none,
    created_at := 1, updated_at := 2 }

/-- Sample profile row used by concrete witnesses. -/
def sampleProfile : ProfileRow :=
  { id := "p1", user_id := "u1", name := some "Ada", avatar_url := none,
    created_at := 1, updated_at := 1 }

/-! ## Theorems -/

/-- Helper: a row of the returned page belongs to the pre-pagination
matched list. -/
theorem mem_taskMatches_of_mem_page {uid : String} {db : List TaskRow}
    {p : ListParams} {r : TaskRow} (h : r ∈ (listTasks uid db p).1) :
    r ∈ taskMatches uid db p := by
  simp only [listTasks] at h
  exact List.mem_of_mem_drop (List.mem_of_mem_take h)

/-- Helper: a row of the matched list satisfies all three query
predicates. -/
theorem mem_filters_of_mem_taskMatches {uid : String} {db : List TaskRow}
    {p : ListParams} {r : TaskRow} (h : r ∈ taskMatches uid db p) :
    r ∈ ((rlsSelectTasks uid db).filter (matchesStatus p.statusFilter)).filter
      (matchesSearch p.search) := by
  simp only [taskMatches] at h
  exact ((List.perm_insertionSort createdDescRel _).mem_iff).mp h

/-- C1: for every authenticated caller and every task row, `listTasks`
returns the row only when its `user_id` equals the caller's identity;
rows owned by a different identity are silently excluded (the select
path filters, it never raises an error for them). -/
theorem listTasks_owner_scoping (uid : String) (db : List TaskRow)
    (p : ListParams) :
    (∀ r ∈ (listTasks uid db p).1, r.user_id = uid) ∧
      ∀ r ∈ db, r.user_id ≠ uid → r ∉ (listTasks uid db p).1 := by
  have key : ∀ r ∈ (listTasks uid db p).1, r.user_id = uid := by
    intro r hr
    have h2 := mem_filters_of_mem_taskMatches (mem_taskMatches_of_mem_page hr)
    have h3 := (List.mem_filter.mp (List.mem_filter.mp h2).1).1
    simp only [rlsSelectTasks] at h3
    have h4 := (List.mem_filter.mp h3).2
    simpa using h4
  exact ⟨key, fun r _ hne hmem => hne (key r hmem)⟩

/-- Witness for C1 at a concrete two-user store: the second user's row
is not returned to the first user. -/
theorem listTasks_owner_scoping_witness :
    sampleTaskB ∉ (listTasks "u1" [sampleTaskA, sampleTaskB] sampleParamsAll).1 :=
  (listTasks_owner_scoping "u1" [sampleTaskA, sampleTaskB] sampleParamsAll).2
    sampleTaskB (by decide) (by decide)

/-- Helper: the page-count formula is ceiling division for a positive
total. -/
theorem pageCount_eq_ceil {total : Nat} (h : 1 ≤ total) :
    (pageCount total : ℤ) = ⌈(total : ℚ) / (pageSize : ℚ)⌉ := by
  have hdm := Nat.div_add_mod (total + 9) 10
  have hmlt : (total + 9) % 10 < 10 := Nat.mod_lt _ (by norm_num)
  set q := (total + 9) / 10 with hqdef
  have h1 : total ≤ 10 * q := by omega
  have h2 : 10 * q ≤ total + 9 := by omega
  have hcount : pageCount total = q := by
    simp only [pageCount, pageSize]
    omega
  have hps : (pageSize : ℚ) = 10 := by norm_num [pageSize]
  rw [hcount, hps]
  symm
  rw [Int.ceil_eq_iff]
  constructor
  · rw [lt_div_iff₀ (by norm_num : (0:ℚ) < 10)]
    have h2q : (10:ℚ) * q ≤ (total:ℚ) + 9 := by exact_mod_cast h2
    push_cast
    linarith
  · rw [div_le_iff₀ (by norm_num : (0:ℚ) < 10)]
    have h1q : (total:ℚ) ≤ 10 * q := by exact_mod_cast h1
    push_cast
    linarith

/-- C3: the page count is `max 1 (ceil(total / pageSize))`: when zero
tasks match, `listTasks` returns an empty list with total `0` and the
page count is `1`; for `total ≥ 1` the page count equals
`ceil(total / pageSize)`; the page count is always at least `1`. -/
theorem listTasks_pageCount (uid : String) (db : List TaskRow)
    (p : ListParams) (total : Nat) :
    (taskMatches uid db p = [] →
        listTasks uid db p = ([], 0) ∧
          pageCount (listTasks uid db p).2 = 1) ∧
    (1 ≤ total → (pageCount total : ℤ) = ⌈(total : ℚ) / (pageSize : ℚ)⌉) ∧
    1 ≤ pageCount total := by
  refine ⟨?_, fun h => pageCount_eq_ceil h, le_max_left 1 _⟩
  intro h
  constructor
  · simp [listTasks, h]
  · simp [listTasks, h, pageCount, pageSize]

/-- Witness for C3: zero tasks give an empty page, total `0` and page
count `1`; a total of `25` gives `ceil(25 / 10) = 3` pages. -/
theorem listTasks_pageCount_witness :
    (listTasks "u1" [] sampleParamsAll = ([], 0) ∧
        pageCount (listTasks "u1" [] sampleParamsAll).2 = 1) ∧
      (pageCount 25 : ℤ) = ⌈(25 : ℚ) / (pageSize : ℚ)⌉ :=
  ⟨(listTasks_pageCount "u1" [] sampleParamsAll 25).1 (by decide),
    (listTasks_pageCount "u1" [] sampleParamsAll 25).2.1 (by norm_num)⟩

/-- C2 counterexample: `createTask` invoked with an empty title under a
valid session succeeds and inserts a row whose title is the empty
string — the data-access layer raises no validation error and the
`title` column's NOT NULL constraint admits the empty string. -/
theorem createTask_empty_title_counterexample :
    createTask (some "u1") "" "" .pending [] "t9" 0 =
      .ok [{ id := "t9", user_id := "u1", title := "", description := none,
             status := .pending, created_at := 0, updated_at := 0 }] := rfl

/-- C2 (amended): `createTask` itself performs no title validation —
with a session it succeeds and appends one row carrying the given title,
whatever that title is; the blank-title call is prevented one layer up,
by the Add Task button, which is disabled exactly when a create is
pending or the trimmed title is empty.  In particular a non-empty title
succeeds. -/
theorem createTask_no_validation (uid title description : String)
    (st : TaskStatus) (db : List TaskRow) (newId : String) (now : Nat)
    (isPending : Bool) :
    (∃ row : TaskRow,
        createTask (some uid) title description st db newId now =
          .ok (db ++ [row]) ∧ row.title = title ∧ row.user_id = uid) ∧
    (addTaskDisabled isPending title = false ↔
      isPending = false ∧ jsTrim title ≠ "") := by
  constructor
  · exact ⟨_, rfl, rfl, rfl⟩
  · simp [addTaskDisabled]

/-- C6 counterexample: with no session, `upsertProfile` hits the
`if (!user) return;` guard: the mutation resolves successfully (so the
UI's onSuccess path reports "Profile updated") and the store is
untouched — no authentication or authorization error is raised. -/
theorem upsertProfile_no_session_counterexample :
    upsertProfile none "Alice" "" none [] "p1" 0 = .ok [] := rfl

/-- C6 (amended): when no session is present, `upsertProfile` writes
nothing and returns without error for every input — the mutation reports
success rather than an authentication/authorization failure. -/
theorem upsertProfile_no_session (name avatarUrl : String)
    (overrideAvatarUrl : Option String) (db : List ProfileRow)
    (newId : String) (now : Nat) :
    upsertProfile none name avatarUrl overrideAvatarUrl db newId now =
      .ok db := rfl

/-- C7 counterexample: deleting an existing owned row succeeds and
removes it; repeating the delete on the resulting store also resolves
with `error = null` — the store reports success, not a NotFound error,
for the absent row. -/
theorem deleteTask_second_delete_counterexample :
    deleteTask "u1" [sampleTaskA] "t1" = .ok [] ∧
      deleteTask "u1" [] "t1" = .ok [] := ⟨rfl, rfl⟩

/-- C7 (amended): `deleteTask` always resolves successfully: it removes
exactly the caller's rows with the given id and keeps every other row;
when no such row exists (in particular on a second delete) it succeeds
with the store unchanged — no NotFound error is reported. -/
theorem deleteTask_semantics (uid : String) (db : List TaskRow)
    (id : String) :
    (∃ db2, deleteTask uid db id = .ok db2 ∧
        (∀ r ∈ db2, ¬(r.id = id ∧ r.user_id = uid)) ∧
        ∀ r ∈ db, ¬(r.id = id ∧ r.user_id = uid) → r ∈ db2) ∧
    ((∀ r ∈ db, ¬(r.id = id ∧ r.user_id = uid)) →
      deleteTask uid db id = .ok db) := by
  constructor
  · refine ⟨_, rfl, ?_, ?_⟩
    · intro r hr
      have h := (List.mem_filter.mp hr).2
      simp only [Bool.not_eq_eq_eq_not, Bool.not_true, Bool.and_eq_false_imp,
        beq_iff_eq, beq_eq_false_iff_ne] at h
      exact fun hand => h hand.1 hand.2
    · intro r hr hnot
      refine List.mem_filter.mpr ⟨hr, ?_⟩
      simp only [Bool.not_eq_eq_eq_not, Bool.not_true, Bool.and_eq_false_imp,
        beq_iff_eq, beq_eq_false_iff_ne]
      exact fun h1 h2 => hnot ⟨h1, h2⟩
  · intro h
    simp only [deleteTask]
    congr 1
    rw [List.filter_eq_self]
    intro r hr
    simp only [Bool.not_eq_eq_eq_not, Bool.not_true, Bool.and_eq_false_imp,
      beq_iff_eq, beq_eq_false_iff_ne]
    exact fun h1 h2 => h r hr ⟨h1, h2⟩

/-- Witness for C7 at a concrete input: deleting an id the caller does
not own leaves the store unchanged and succeeds. -/
theorem deleteTask_semantics_witness :
    deleteTask "u1" [sampleTaskB] "t1" = .ok [sampleTaskB] :=
  (deleteTask_semantics "u1" [sampleTaskB] "t1").2 (by decide)

/-- C9: a successful UPDATE of a `tasks` or `profiles` row runs the
BEFORE UPDATE trigger, which refreshes `updated_at` to `now()` — even
when the caller supplied a value for that column — while every column
not named in the update keeps its value (`id`, `user_id` and
`created_at` are never in the SET list of the application's updates). -/
theorem updated_at_refresh (r : TaskRow) (c : TaskUpdateChanges)
    (pr : ProfileRow) (pc : ProfileUpdateChanges) (now : Nat) :
    ((updateTaskRow now r c).updated_at = now ∧
      (updateTaskRow now r c).id = r.id ∧
      (updateTaskRow now r c).user_id = r.user_id ∧
      (updateTaskRow now r c).created_at = r.created_at ∧
      (c.title = none → (updateTaskRow now r c).title = r.title) ∧
      (c.description = none →
        (updateTaskRow now r c).description = r.description) ∧
      (c.status = none → (updateTaskRow now r c).status = r.status)) ∧
    ((updateProfileRow now pr pc).updated_at = now ∧
      (updateProfileRow now pr pc).id = pr.id ∧
      (updateProfileRow now pr pc).user_id = pr.user_id ∧
      (updateProfileRow now pr pc).created_at = pr.created_at ∧
      (pc.name = none → (updateProfileRow now pr pc).name = pr.name) ∧
      (pc.avatar_url = none →
        (updateProfileRow now pr pc).avatar_url = pr.avatar_url)) := by
  refine ⟨⟨rfl, rfl, rfl, rfl, ?_, ?_, ?_⟩, rfl, rfl, rfl, rfl, ?_, ?_⟩ <;>
    (intro h;
     simp [updateTaskRow, updateProfileRow, applyTaskChanges,
       applyProfileChanges, update_updated_at_column,
       update_profiles_updated_at, h])

/-- Witness for C9: an update that supplies `updated_at = 99` and no
title still gets `updated_at = 5` (the trigger's now) and keeps the
title. -/
theorem updated_at_refresh_witness :
    (updateTaskRow 5 sampleTaskA { updated_at := some 99 }).updated_at = 5 ∧
      (updateTaskRow 5 sampleTaskA { updated_at := some 99 }).title =
        sampleTaskA.title ∧
      (updateProfileRow 5 sampleProfile { updated_at := some 99 }).updated_at =
        5 ∧
      (updateProfileRow 5 sampleProfile { updated_at := some 99 }).name =
        sampleProfile.name := by
  have h := updated_at_refresh sampleTaskA { updated_at := some 99 }
    sampleProfile { updated_at := some 99 } 5
  exact ⟨h.1.1, h.1.2.2.2.2.1 rfl, h.2.1, h.2.2.2.2.2.1 rfl⟩

/-- C4 counterexample: with the non-empty search string `"milk "`
(trailing space) the query matches against the trimmed pattern, so a
task titled "milkshake" (no description) is returned even though the
raw search string is not a case-insensitive substring of its title or
description. -/
theorem listTasks_search_counterexample :
    milkshakeTask ∈ (listTasks "u1" [milkshakeTask] sampleParamsSearch).1 ∧
      sampleParamsSearch.search ≠ "" ∧
      containsCI milkshakeTask.title sampleParamsSearch.search = false ∧
      milkshakeTask.description = none :=
  ⟨by decide, by decide, by decide, rfl⟩

/-- Helper: a non-empty trimmed search makes the length guard of the
alternate dashboard's client-side filter false. -/
theorem jsTrim_length_beq_zero_eq_false {s : String} (h : jsTrim s ≠ "") :
    ((jsTrim s).length == 0) = false := by
  rcases h0 : jsTrim s with ⟨l⟩
  rcases l with _ | ⟨c, cs⟩
  · exact absurd h0 (by simpa using h)
  · rfl

/-- Helper: a wildcard-free LIKE pattern segment followed by `%`
matches exactly the texts whose lower-casing it prefixes. -/
theorem ilikeMatch_append_percent {v : List Char}
    (hv : v.all (fun c => !(c == '%' || c == '_')) = true) :
    ∀ {t : List Char}, ilikeMatch (v ++ ['%']) t = true →
      lowerChars v <+: lowerChars t := by
  induction v with
  | nil =>
      intro t _
      exact List.nil_prefix
  | cons c v2 ih =>
      intro t h
      rw [List.all_cons, Bool.and_eq_true] at hv
      obtain ⟨hc, hv2⟩ := hv
      have hcp : c ≠ '%' := by
        intro he
        rw [he] at hc
        simp at hc
      have hcu : c ≠ '_' := by
        intro he
        rw [he] at hc
        simp at hc
      rw [List.cons_append] at h
      simp only [ilikeMatch, if_neg hcp, if_neg hcu] at h
      cases t with
      | nil => exact absurd h (by simp)
      | cons d t2 =>
          rw [Bool.and_eq_true] at h
          obtain ⟨h1, h2⟩ := h
          have hd : c.toLower = d.toLower := by simpa using h1
          simp only [lowerChars, List.map_cons, List.cons_prefix_cons]
          exact ⟨hd, ih hv2 h2⟩

/-- Helper: a text matching the ILIKE pattern `%v%` for a wildcard-free
`v` contains `v` as a case-insensitive substring. -/
theorem ilikeMatch_percent_wrap {v s : List Char}
    (hv : v.all (fun c => !(c == '%' || c == '_')) = true)
    (h : ilikeMatch ('%' :: v ++ ['%']) s = true) :
    lowerChars v <:+: lowerChars s := by
  simp only [ilikeMatch, if_pos rfl] at h
  obtain ⟨t, ht, hmatch⟩ := List.any_eq_true.mp h
  have hsuf : t <:+ s := (List.mem_tails t s).mp ht
  have hpre : lowerChars v <+: lowerChars t :=
    ilikeMatch_append_percent hv hmatch
  exact hpre.isInfix.trans (List.IsSuffix.map Char.toLower hsuf).isInfix

/-- Helper: the PostgREST `*` translation is the identity on a fully
literal search value. -/
theorem postgrestStar_of_literal {v : List Char}
    (hv : v.all literalSearchChar = true) : postgrestStar v = v := by
  induction v with
  | nil => rfl
  | cons c v2 ih =>
      rw [List.all_cons, Bool.and_eq_true] at hv
      obtain ⟨hc, hv2⟩ := hv
      have hcs : c ≠ '*' := by
        intro he
        rw [he] at hc
        simp [literalSearchChar, patternSafeChar] at hc
      simp only [postgrestStar, List.map_cons, if_neg hcs]
      exact congrArg (c :: ·) (ih hv2)

/-- Helper: a fully literal search value carries no SQL wildcards. -/
theorem literal_no_wildcards {v : List Char}
    (hv : v.all literalSearchChar = true) :
    v.all (fun c => !(c == '%' || c == '_')) = true := by
  rw [List.all_eq_true] at hv ⊢
  intro c hcv
  have hc := hv c hcv
  simp [literalSearchChar, patternSafeChar] at hc
  simp [hc]

/-- Helper: a row of the returned page satisfies the ILIKE search
disjunction whenever the trimmed search is non-empty. -/
theorem ilike_of_mem_page {uid : String} {db : List TaskRow}
    {p : ListParams} {r : TaskRow} (hsearch : jsTrim p.search ≠ "")
    (hr : r ∈ (listTasks uid db p).1) :
    ilikeMatch (searchPattern p.search) r.title.toList = true ∨
      ∃ d, r.description = some d ∧
        ilikeMatch (searchPattern p.search) d.toList = true := by
  have h := (List.mem_filter.mp
    (mem_filters_of_mem_taskMatches (mem_taskMatches_of_mem_page hr))).2
  have hfalse : (jsTrim p.search == "") = false := beq_eq_false_iff_ne.mpr hsearch
  simp only [matchesSearch, hfalse, Bool.false_eq_true, if_false] at h
  rw [Bool.or_eq_true] at h
  rcases h with h1 | h2
  · exact Or.inl h1
  · rcases hd : r.description with _ | d
    · rw [hd] at h2
      exact absurd h2 (by simp)
    · rw [hd] at h2
      exact Or.inr ⟨d, rfl, h2⟩

/-- C4 (amended): with status filter `completed` (resp. `pending`) no
returned task has the other status.  The search value reaches SQL as
the user-controlled ILIKE pattern `%search.trim()%` (PostgREST turns
`*` into `%`; `%`/`_` are wildcards), so what holds in general — for
trimmed searches that do not disturb the PostgREST filter syntax — is
that every returned task's title or description MATCHES that pattern;
only when the trimmed search is wildcard-free is this the literal
property, i.e. the TRIMMED search string is a case-insensitive
substring of the title or description (the handler trims, so a raw
string with surrounding whitespace is not itself matched, and a
wildcard such as `%` in the search matches tasks that do not contain
it literally).  With filter `all` and an empty (after trimming) search,
no owned task is excluded from the matched set that the page is sliced
from and that the returned total counts.  The alternate dashboard's
client-side `filteredTasks` compares with JavaScript `includes`, a
literal substring test on the raw search string. -/
theorem listTasks_filter_semantics (uid : String) (db : List TaskRow)
    (p : ListParams) (tasks : List TaskRow) (search : String)
    (f : StatusFilter) :
    (∀ s, p.statusFilter = .only s →
      ∀ r ∈ (listTasks uid db p).1, r.status = s) ∧
    ((jsTrim p.search).toList.all patternSafeChar = true →
      jsTrim p.search ≠ "" → ∀ r ∈ (listTasks uid db p).1,
        ilikeMatch (searchPattern p.search) r.title.toList = true ∨
          ∃ d, r.description = some d ∧
            ilikeMatch (searchPattern p.search) d.toList = true) ∧
    ((jsTrim p.search).toList.all literalSearchChar = true →
      jsTrim p.search ≠ "" → ∀ r ∈ (listTasks uid db p).1,
        containsCI r.title (jsTrim p.search) = true ∨
          ∃ d, r.description = some d ∧
            containsCI d (jsTrim p.search) = true) ∧
    (p.statusFilter = .all → jsTrim p.search = "" →
      ∀ r ∈ db, r.user_id = uid → r ∈ taskMatches uid db p) ∧
    (∀ s, f = .only s → ∀ r ∈ filteredTasks tasks search f, r.status = s) ∧
    (jsTrim search ≠ "" → ∀ r ∈ filteredTasks tasks search f,
        containsCI r.title search = true ∨
          containsCI (r.description.getD "") search = true) ∧
    (f = .all → jsTrim search = "" →
      ∀ r ∈ tasks, r ∈ filteredTasks tasks search f) := by
  refine ⟨?_, ?_, ?_, ?_, ?_, ?_, ?_⟩
  · intro s hs r hr
    have h := (List.mem_filter.mp
      (List.mem_filter.mp
        (mem_filters_of_mem_taskMatches (mem_taskMatches_of_mem_page hr))).1).2
    rw [hs] at h
    simpa [matchesStatus] using h
  · intro _hsafe hsearch r hr
    exact ilike_of_mem_page hsearch hr
  · intro hlit hsearch r hr
    have hv := literal_no_wildcards hlit
    have hpat : searchPattern p.search =
        ('%' :: (jsTrim p.search).toList ++ ['%'] : List Char) := by
      rw [searchPattern, postgrestStar_of_literal hlit]
    rcases ilike_of_mem_page hsearch hr with h1 | ⟨d, hd, h1⟩
    · refine Or.inl ?_
      rw [hpat] at h1
      simp only [containsCI]
      exact decide_eq_true (ilikeMatch_percent_wrap hv h1)
    · refine Or.inr ⟨d, hd, ?_⟩
      rw [hpat] at h1
      simp only [containsCI]
      exact decide_eq_true (ilikeMatch_percent_wrap hv h1)
  · intro hall hempty r hrdb hrown
    simp only [taskMatches]
    rw [(List.perm_insertionSort createdDescRel _).mem_iff]
    refine List.mem_filter.mpr ⟨List.mem_filter.mpr ⟨?_, ?_⟩, ?_⟩
    · simp only [rlsSelectTasks]
      exact List.mem_filter.mpr ⟨hrdb, by simp [hrown]⟩
    · rw [hall]
      rfl
    · simp [matchesSearch, hempty]
  · intro s hs r hr
    simp only [filteredTasks, List.mem_filter, Bool.and_eq_true] at hr
    have h := hr.2.2
    rw [hs] at h
    simpa [matchesStatus] using h
  · intro hsearch r hr
    simp only [filteredTasks, List.mem_filter, Bool.and_eq_true] at hr
    have h := hr.2.1
    rw [jsTrim_length_beq_zero_eq_false hsearch] at h
    rw [Bool.or_eq_true] at h
    rcases h with h1 | h2
    · exact absurd h1 (by simp)
    · rw [Bool.or_eq_true] at h2
      exact h2
  · intro hall hempty r hr
    simp [filteredTasks, List.mem_filter, hempty, hall, matchesStatus, hr]

/-- Witness for C4 (amended) at concrete inputs: a completed-filter
query over a mixed store returns only completed rows; the wildcard
search "m%k" returns the "milkshake" task through pattern matching; the
literal search "milk " (trimmed to "milk") gives the substring
property; and with filter `all` and empty search an owned task stays in
the matched set. -/
theorem listTasks_filter_semantics_witness :
    (∀ r ∈ (listTasks "u1" [sampleTaskA, sampleTaskB]
        { page := 1, statusFilter := .only .completed, search := "" }).1,
      r.status = .completed) ∧
      (ilikeMatch (searchPattern "m%k") milkshakeTask.title.toList = true ∨
        ∃ d, milkshakeTask.description = some d ∧
          ilikeMatch (searchPattern "m%k") d.toList = true) ∧
      (containsCI milkshakeTask.title (jsTrim "milk ") = true ∨
        ∃ d, milkshakeTask.description = some d ∧
          containsCI d (jsTrim "milk ") = true) ∧
      milkshakeTask ∈ taskMatches "u1" [milkshakeTask] sampleParamsAll ∧
      milkshakeTask ∈ filteredTasks [milkshakeTask] "" .all :=
  ⟨(listTasks_filter_semantics "u1" [sampleTaskA, sampleTaskB]
      { page := 1, statusFilter := .only .completed, search := "" }
      [milkshakeTask] "" .all).1 .completed rfl,
    (listTasks_filter_semantics "u1" [milkshakeTask]
      { page := 1, statusFilter := .all, search := "m%k" }
      [milkshakeTask] "" .all).2.1 (by decide) (by decide) milkshakeTask
      (by decide),
    (listTasks_filter_semantics "u1" [milkshakeTask] sampleParamsSearch
      [milkshakeTask] "" .all).2.2.1 (by decide) (by decide) milkshakeTask
      (by decide),
    (listTasks_filter_semantics "u1" [milkshakeTask] sampleParamsAll
      [milkshakeTask] "" .all).2.2.2.1 rfl (by decide) milkshakeTask
      (by decide) (by decide),
    (listTasks_filter_semantics "u1" [milkshakeTask] sampleParamsAll
      [milkshakeTask] "" .all).2.2.2.2.2.2 rfl (by decide) milkshakeTask
      (by decide)⟩

/-- C8 counterexample: the `Profile.tsx` avatar handler performs no
client-side validation — a 10 MiB non-image file goes straight to the
storage upload call instead of failing with a validation error before
any network call. -/
theorem avatarUpload_no_validation_counterexample :
    avatarOnChange (some "u1")
        (some { name := "big.bin", size := 10485760,
                mimeType := "application/zip" }) 1700 =
      .storageUpload "u1/u1-1700.bin" := by decide

/-- C8 (amended): the alternate profile page's handler rejects a file
over 5 MiB before the storage call with the size message, rejects a
size-acceptable file whose content type is not `image/*` before the
storage call with the type message, and the two rejections are
distinguishable; the `Profile.tsx` handler instead uploads every
selected file without validation. -/
theorem avatarUpload_validation (uid : String) (f : AvatarFile) (ts : Nat) :
    (maxSizeMb * 1024 * 1024 < f.size →
        avatarOnChangeValidated (some uid) (some f) ts =
          .sizeRejected "Please choose an image smaller than 5MB.") ∧
    (f.size ≤ maxSizeMb * 1024 * 1024 →
      "image/".toList.isPrefixOf f.mimeType.toList = false →
        avatarOnChangeValidated (some uid) (some f) ts =
          .typeRejected "Please upload an image file (PNG, JPG, etc.).") ∧
    (∀ m1 m2 : String, AvatarUploadStep.sizeRejected m1 ≠ .typeRejected m2) ∧
    ∃ path, avatarOnChange (some uid) (some f) ts = .storageUpload path := by
  refine ⟨?_, ?_, fun m1 m2 => by simp, ⟨_, rfl⟩⟩
  · intro h
    simp only [avatarOnChangeValidated, if_pos h]
    rfl
  · intro h1 h2
    simp only [avatarOnChangeValidated, if_neg (not_lt.mpr h1), h2,
      Bool.not_false, if_pos]

/-- Witness for C8 (amended): an oversized image is size-rejected and a
small non-image file is type-rejected. -/
theorem avatarUpload_validation_witness :
    avatarOnChangeValidated (some "u1")
        (some { name := "big.png", size := 10485760,
                mimeType := "image/png" }) 3 =
      .sizeRejected "Please choose an image smaller than 5MB." ∧
    avatarOnChangeValidated (some "u1")
        (some { name := "a.txt", size := 100, mimeType := "text/plain" }) 3 =
      .typeRejected "Please upload an image file (PNG, JPG, etc.)." :=
  ⟨(avatarUpload_validation "u1"
      { name := "big.png", size := 10485760, mimeType := "image/png" } 3).1
      (by norm_num [maxSizeMb]),
    (avatarUpload_validation "u1"
      { name := "a.txt", size := 100, mimeType := "text/plain" } 3).2.1
      (by norm_num [maxSizeMb]) (by decide)⟩

/-- Helper: the conflict branch of the upsert preserves the number of
rows keyed by the conflict target. -/
theorem upsertProfileRow_map_filter_length (db : List ProfileRow)
    (uid : String) (nm av : Option String) (now : Nat) :
    ((db.map (fun r => if r.user_id == uid then
        { r with name := nm, avatar_url := av, updated_at := now }
      else r)).filter (fun r => r.user_id == uid)).length =
      (db.filter (fun r => r.user_id == uid)).length := by
  rw [List.filter_map]
  have hpf : ((fun r : ProfileRow => r.user_id == uid) ∘
      (fun r => if r.user_id == uid then
        { r with name := nm, avatar_url := av, updated_at := now } else r)) =
      (fun r : ProfileRow => r.user_id == uid) := by
    funext r
    by_cases h : r.user_id = uid
    · simp [h]
    · simp [h]
  rw [hpf, List.length_map]

/-- Helper: an upsert leaves exactly one row with the conflict-target
`user_id` whenever the store held at most one before. -/
theorem upsertProfileRow_filter_length (db : List ProfileRow) (uid : String)
    (nm av : Option String) (newId : String) (now : Nat)
    (hdb : (db.filter (fun r => r.user_id == uid)).length ≤ 1) :
    ((upsertProfileRow db uid nm av newId now).filter
      (fun r => r.user_id == uid)).length = 1 := by
  simp only [upsertProfileRow]
  cases hany : db.any (fun r => r.user_id == uid) with
  | true =>
      rw [if_pos rfl]
      rw [upsertProfileRow_map_filter_length]
      obtain ⟨r, hr, hpred⟩ := List.any_eq_true.mp hany
      have hmem : r ∈ db.filter (fun r => r.user_id == uid) :=
        List.mem_filter.mpr ⟨hr, hpred⟩
      have hpos : 0 < (db.filter (fun r => r.user_id == uid)).length :=
        List.length_pos.mpr (List.ne_nil_of_mem hmem)
      omega
  | false =>
      rw [if_neg (by simp [hany])]
      rw [List.filter_append]
      have hnil : db.filter (fun r => r.user_id == uid) = [] := by
        rw [List.filter_eq_nil_iff]
        intro r hr
        have := List.any_eq_false.mp hany r hr
        simpa using this
      simp [hnil]

/-- Helper: after an upsert, every row keyed by the conflict target
carries the upserted `name`. -/
theorem upsertProfileRow_name (db : List ProfileRow) (uid : String)
    (nm av : Option String) (newId : String) (now : Nat) :
    ∀ r ∈ upsertProfileRow db uid nm av newId now,
      r.user_id = uid → r.name = nm := by
  intro r hr hru
  simp only [upsertProfileRow] at hr
  cases hany : db.any (fun r => r.user_id == uid) with
  | true =>
      rw [hany, if_pos rfl] at hr
      obtain ⟨r0, hr0, hfr⟩ := List.mem_map.mp hr
      by_cases h0 : r0.user_id = uid
      · rw [if_pos (by simp [h0])] at hfr
        rw [← hfr]
      · rw [if_neg (by simp [h0])] at hfr
        exact absurd (hfr ▸ hru) h0
  | false =>
      rw [hany] at hr
      rw [if_neg (by simp)] at hr
      rcases List.mem_append.mp hr with hl | hr1
      · have := List.any_eq_false.mp hany r hl
        simp [hru] at this
      · rw [List.mem_singleton.mp hr1]

/-- Helper: an upsert keyed on `user_id` leaves rows of other users in
place. -/
theorem upsertProfileRow_other_users (db : List ProfileRow) (uid : String)
    (nm av : Option String) (newId : String) (now : Nat) :
    ∀ r ∈ db, r.user_id ≠ uid → r ∈ upsertProfileRow db uid nm av newId now := by
  intro r hr hne
  simp only [upsertProfileRow]
  cases hany : db.any (fun r => r.user_id == uid) with
  | true =>
      rw [if_pos rfl]
      refine List.mem_map.mpr ⟨r, hr, ?_⟩
      rw [if_neg (by simp [hne])]
  | false =>
      rw [if_neg (by simp)]
      exact List.mem_append_left _ hr

/-- C5: the profile upsert keeps at most one row per `user_id`: if the
store holds at most one row for the caller, then after two
`upsertProfile` calls with different names exactly one row for that
`user_id` remains and its name reflects the latest value (empty names
are stored as NULL by the `name || null` coercion); rows of other users
are untouched.  The first call inserts when no row exists and replaces
`name`/`avatar_url` otherwise (helper lemmas
`upsertProfileRow_filter_length` and `upsertProfileRow_name`). -/
theorem upsertProfile_single_row (db : List ProfileRow)
    (uid n1 n2 a1 a2 id1 id2 : String) (t1 t2 : Nat)
    (db1 db2 : List ProfileRow)
    (hdb : (db.filter (fun r => r.user_id == uid)).length ≤ 1)
    (_hn : n1 ≠ n2)
    (h1 : upsertProfile (some uid) n1 a1 none db id1 t1 = .ok db1)
    (h2 : upsertProfile (some uid) n2 a2 none db1 id2 t2 = .ok db2) :
    ((db2.filter (fun r => r.user_id == uid)).length = 1) ∧
      (∀ r ∈ db2, r.user_id = uid → r.name = strOrNone n2) ∧
      ∀ r ∈ db, r.user_id ≠ uid → r ∈ db2 := by
  have hdb1 : db1 = upsertProfileRow db uid (strOrNone n1)
      (strOrNone a1) id1 t1 := by
    simpa [upsertProfile] using h1.symm
  have hdb2 : db2 = upsertProfileRow db1 uid (strOrNone n2)
      (strOrNone a2) id2 t2 := by
    simpa [upsertProfile] using h2.symm
  have hlen1 : ((db1.filter (fun r => r.user_id == uid)).length = 1) := by
    rw [hdb1]
    exact upsertProfileRow_filter_length db uid _ _ id1 t1 hdb
  refine ⟨?_, ?_, ?_⟩
  · rw [hdb2]
    exact upsertProfileRow_filter_length db1 uid _ _ id2 t2 (by omega)
  · rw [hdb2]
    exact upsertProfileRow_name db1 uid _ _ id2 t2
  · intro r hr hne
    rw [hdb2]
    refine upsertProfileRow_other_users db1 uid _ _ id2 t2 r ?_ hne
    rw [hdb1]
    exact upsertProfileRow_other_users db uid _ _ id1 t1 r hr hne

/-- Witness for C5: starting from an empty store, upserting name "Ann"
then name "Bea" for user `u1` leaves exactly one row, named "Bea". -/
theorem upsertProfile_single_row_witness :
    (([profileBea].filter (fun r => r.user_id == "u1")).length = 1) ∧
      (∀ r ∈ [profileBea], r.user_id = "u1" → r.name = strOrNone "Bea") ∧
      ∀ r ∈ ([] : List ProfileRow), r.user_id ≠ "u1" → r ∈ [profileBea] :=
  upsertProfile_single_row [] "u1" "Ann" "Bea" "" "" "p1" "p2" 1 2
    [profileAnn] [profileBea] (by decide) (by decide) rfl rfl

/-- Helper: membership in the summary's key list is membership in the
fetched rows. -/
theorem mem_statusKeys_aux (rows : List TaskStatus) :
    ∀ (acc : List TaskStatus) (s : TaskStatus),
      (s ∈ rows.foldl (fun ks t => if t ∈ ks then ks else ks ++ [t]) acc ↔
        s ∈ acc ∨ s ∈ rows) := by
  induction rows with
  | nil =>
      intro acc s
      simp
  | cons a tl ih =>
      intro acc s
      simp only [List.foldl_cons]
      rw [ih]
      by_cases h : a ∈ acc
      · rw [if_pos h]
        simp only [List.mem_cons]
        constructor
        · rintro (hs | hs)
          · exact Or.inl hs
          · exact Or.inr (Or.inr hs)
        · rintro (hs | hs | hs)
          · exact Or.inl hs
          · exact Or.inl (hs ▸ h)
          · exact Or.inr hs
      · rw [if_neg h]
        simp only [List.mem_append, List.mem_cons, List.not_mem_nil,
          or_false]
        constructor
        · rintro ((hs | hs) | hs)
          · exact Or.inl hs
          · exact Or.inr (Or.inl hs)
          · exact Or.inr (Or.inr hs)
        · rintro (hs | hs | hs)
          · exact Or.inl (Or.inl hs)
          · exact Or.inl (Or.inr hs)
          · exact Or.inr hs

/-- Helper: the summary's key list never repeats a key. -/
theorem statusKeys_nodup_aux (rows : List TaskStatus) :
    ∀ acc : List TaskStatus, acc.Nodup →
      (rows.foldl (fun ks t => if t ∈ ks then ks else ks ++ [t]) acc).Nodup := by
  induction rows with
  | nil =>
      intro acc h
      simpa using h
  | cons a tl ih =>
      intro acc h
      simp only [List.foldl_cons]
      by_cases ha : a ∈ acc
      · rw [if_pos ha]
        exact ih acc h
      · rw [if_neg ha]
        refine ih _ ?_
        rw [List.nodup_append]
        exact ⟨h, List.nodup_singleton a,
          fun x hx hx2 => ha ((List.mem_singleton.mp hx2) ▸ hx)⟩

/-- Helper: looking a status up in the summary rows yields its count
when the status occurs as a key and nothing otherwise. -/
theorem find_status_count (ks rows : List TaskStatus) (s : TaskStatus) :
    ((ks.map (fun k => (k, rows.count k))).find? (fun row => row.1 == s)) =
      if s ∈ ks then some (s, rows.count s) else none := by
  induction ks with
  | nil => simp
  | cons a tl ih =>
      by_cases h : a = s
      · subst h
        rw [List.map_cons, List.find?_cons_of_pos _ (by simp)]
        rw [if_pos (List.mem_cons_self a tl)]
      · rw [List.map_cons, List.find?_cons_of_neg _ (by simp [h]), ih]
        by_cases hs : s ∈ tl
        · rw [if_pos hs, if_pos (List.mem_cons_of_mem a hs)]
        · rw [if_neg hs, if_neg (by
            simp only [List.mem_cons, hs, or_false]
            exact fun hsa => h hsa.symm)]

/-- Helper: the client-side reduce over the summary rows is the sum of
their counts. -/
theorem foldl_add_snd (counts : List (TaskStatus × Nat)) :
    ∀ n : Nat, counts.foldl (fun sum row => sum + row.2) n =
      n + (counts.map (fun row => row.2)).sum := by
  induction counts with
  | nil =>
      intro n
      simp
  | cons a tl ih =>
      intro n
      simp [ih, Nat.add_assoc]

/-- Helper: over a duplicate-free key list drawn from the two-valued
status enum, the summed counts are the pending part plus the completed
part. -/
theorem sum_counts_keys :
    ∀ (ks : List TaskStatus), ks.Nodup → ∀ g : TaskStatus → Nat,
      (ks.map g).sum =
        (if TaskStatus.pending ∈ ks then g .pending else 0) +
          (if TaskStatus.completed ∈ ks then g .completed else 0)
  | [], _, g => by simp
  | a :: tl, hk, g => by
      obtain ⟨ha, htl⟩ := List.nodup_cons.mp hk
      have ih := sum_counts_keys tl htl g
      simp only [List.map_cons, List.sum_cons, ih, List.mem_cons]
      cases a with
      | pending =>
          have h1 : TaskStatus.pending ∉ tl := ha
          by_cases h2 : TaskStatus.completed ∈ tl
          · simp [h1, h2]
          · simp [h1, h2]
      | completed =>
          have h1 : TaskStatus.completed ∉ tl := ha
          by_cases h2 : TaskStatus.pending ∈ tl
          · simp [h1, h2]
            omega
          · simp [h1, h2]

/-- C10: the profile page's displayed totals are consistent: every
fetched row's status is `pending` or `completed` (the column is that
two-valued enum), the summary partitions the rows by status, and so the
total count equals the completed count plus the pending count. -/
theorem totalTasks_eq_completed_add_pending (rows : List TaskStatus) :
    totalTasks (taskCounts rows) =
      completedTasks (taskCounts rows) + pendingTasks (taskCounts rows) := by
  have hkeys_mem : ∀ s, s ∈ statusKeys rows ↔ s ∈ rows := by
    intro s
    rw [statusKeys, mem_statusKeys_aux rows [] s]
    simp
  have hnodup : (statusKeys rows).Nodup :=
    statusKeys_nodup_aux rows [] List.nodup_nil
  have hcount_zero : ∀ s : TaskStatus, s ∉ statusKeys rows →
      rows.count s = 0 := by
    intro s hs
    exact List.count_eq_zero.mpr (fun hm => hs ((hkeys_mem s).mpr hm))
  have hc : completedTasks (taskCounts rows) = rows.count .completed := by
    simp only [completedTasks, taskCounts, find_status_count]
    by_cases h : TaskStatus.completed ∈ statusKeys rows
    · rw [if_pos h]
      rfl
    · rw [if_neg h]
      simp [hcount_zero _ h]
  have hp : pendingTasks (taskCounts rows) = rows.count .pending := by
    simp only [pendingTasks, taskCounts, find_status_count]
    by_cases h : TaskStatus.pending ∈ statusKeys rows
    · rw [if_pos h]
      rfl
    · rw [if_neg h]
      simp [hcount_zero _ h]
  have ht : totalTasks (taskCounts rows) =
      rows.count .pending + rows.count .completed := by
    simp only [totalTasks, taskCounts]
    rw [foldl_add_snd, List.map_map]
    have : ((fun row : TaskStatus × Nat => row.2) ∘
        fun s => (s, rows.count s)) = fun s => rows.count s := rfl
    rw [this, sum_counts_keys _ hnodup]
    by_cases h1 : TaskStatus.pending ∈ statusKeys rows <;>
      by_cases h2 : TaskStatus.completed ∈ statusKeys rows <;>
        simp [h1, h2, hcount_zero]
  rw [ht, hc, hp, Nat.add_comm]
